import Mathlib

/-!
Verification of the InterviewSpark core against its specification.

Shallow embedding of the Rust sources under `src-tauri/src/`:
* `rig_adapter/state_machine.rs` — interview phase state machine
* `rig_adapter/scheduler.rs` — agent scheduler (turn creation / answer processing)
* `rig_adapter/agents/{tech,hr,business}.rs` — interviewer agents (analysis fallback)
* `api/retry.rs` — retry policy
* `api/dedup.rs` — request deduplicator (interleaving semantics)
* `rag/vectordb.rs` — vector store (index build / search)
* `rag/service.rs` — RAG facade (lazy init, sticky failure)

Modelling conventions: Rust `u32` counters are `Nat` reduced mod `2^32` where
an increment can overflow; `f32`/`f64` scores are modelled as `ℚ` (every
comparison performed by the sources is against the exactly representable
literal `8.0`, `7.0` or `7.5`, for which IEEE ordering coincides with the
rational ordering of the represented values); fallible Rust functions return
`Except`; `&mut` state is passed and returned explicitly.
-/

set_option maxHeartbeats 1000000

/-- `InterviewPhase` from `state_machine.rs`. -/
inductive InterviewPhase
  | WarmUp
  | Technical
  | Behavioral
  | Business
  | Questions
  | Completed
deriving DecidableEq, BEq, Repr

/-- `InterviewerRole` from `agents/mod.rs`. -/
inductive InterviewerRole
  | Technical
  | HR
  | Business
deriving DecidableEq, BEq, Repr

/-- `AnalysisResult` from `agents/mod.rs` (`score: f32` modelled as `ℚ`). -/
structure AnalysisResult where
  score : ℚ
  strengths : List String
  improvements : List String
  summary : String
deriving DecidableEq, Repr

/-- `PhaseConfig` from `state_machine.rs` (`u32` fields as `Nat`). -/
structure PhaseConfig where
  phase : InterviewPhase
  min_questions : Nat
  max_questions : Nat
  primary_role : InterviewerRole
deriving DecidableEq, Repr

/-- `InterviewStateMachine` from `state_machine.rs`. -/
structure InterviewStateMachine where
  current_phase : InterviewPhase
  phase_question_count : Nat
  total_question_count : Nat
  phase_configs : List PhaseConfig
deriving DecidableEq, Repr

/-- Reduction of a `u32` arithmetic result modulo `2^32`. -/
def wrap32 (n : Nat) : Nat := n % 4294967296

/-- `InterviewStateMachine::default_configs`. -/
def InterviewStateMachine.default_configs : List PhaseConfig :=
  [ { phase := .WarmUp, min_questions := 1, max_questions := 2, primary_role := .HR },
    { phase := .Technical, min_questions := 3, max_questions := 5, primary_role := .Technical },
    { phase := .Behavioral, min_questions := 2, max_questions := 3, primary_role := .HR },
    { phase := .Business, min_questions := 2, max_questions := 3, primary_role := .Business },
    { phase := .Questions, min_questions := 1, max_questions := 2, primary_role := .HR } ]

/-- `InterviewStateMachine::new`. -/
def InterviewStateMachine.new : InterviewStateMachine :=
  { current_phase := .WarmUp,
    phase_question_count := 0,
    total_question_count := 0,
    phase_configs := InterviewStateMachine.default_configs }

/-- `InterviewStateMachine::advance_phase`: resets the per-phase counter first,
then moves along the fixed linear order (`Completed` yields `None`). -/
def InterviewStateMachine.advance_phase (sm : InterviewStateMachine) :
    Option InterviewPhase × InterviewStateMachine :=
  let sm := { sm with phase_question_count := 0 }
  match sm.current_phase with
  | .WarmUp => (some .Technical, { sm with current_phase := .Technical })
  | .Technical => (some .Behavioral, { sm with current_phase := .Behavioral })
  | .Behavioral => (some .Business, { sm with current_phase := .Business })
  | .Business => (some .Questions, { sm with current_phase := .Questions })
  | .Questions => (some .Completed, { sm with current_phase := .Completed })
  | .Completed => (none, sm)

/-- `InterviewStateMachine::record_question`: increments both counters (with
`u32` wrap-around), then forces an advance when the per-phase counter has
reached the current phase's `max_questions`.  The counters are incremented
before the config lookup, exactly as in the source. -/
def InterviewStateMachine.record_question (sm : InterviewStateMachine) :
    Option InterviewPhase × InterviewStateMachine :=
  let sm := { sm with
    phase_question_count := wrap32 (sm.phase_question_count + 1),
    total_question_count := wrap32 (sm.total_question_count + 1) }
  match sm.phase_configs.find? (fun c => c.phase == sm.current_phase) with
  | none => (none, sm)
  | some current_config =>
    if current_config.max_questions ≤ sm.phase_question_count then
      sm.advance_phase
    else
      (none, sm)

/-- `InterviewStateMachine::maybe_advance`: advances when the per-phase counter
has reached `min_questions` and the analysis score is at least `8.0`. -/
def InterviewStateMachine.maybe_advance (sm : InterviewStateMachine)
    (analysis : AnalysisResult) : Option InterviewPhase × InterviewStateMachine :=
  match sm.phase_configs.find? (fun c => c.phase == sm.current_phase) with
  | none => (none, sm)
  | some current_config =>
    if current_config.min_questions ≤ sm.phase_question_count ∧ (8 : ℚ) ≤ analysis.score then
      sm.advance_phase
    else
      (none, sm)

/-- `RetryPolicy` from `api/retry.rs` (`u32`/`u64` as `Nat`, `f64` as `ℚ`). -/
structure RetryPolicy where
  max_retries : Nat
  initial_delay_ms : Nat
  backoff_multiplier : ℚ
  max_delay_ms : Nat
deriving DecidableEq, Repr

/-- `RetryPolicy::default`. -/
def RetryPolicy.default : RetryPolicy :=
  { max_retries := 3, initial_delay_ms := 1000, backoff_multiplier := 2, max_delay_ms := 10000 }

/-- The loop body of `RetryPolicy::execute`.  The operation is modelled as a
function from the zero-based attempt number to its outcome; the pair returned
is (final result, number of times the operation was invoked).  The backoff
sleep affects timing only, never the returned value or the attempt count, and
is not modelled. -/
def RetryPolicy.executeFrom {E T : Type} (op : Nat → Except E T) (max_retries : Nat)
    (attempts : Nat) : Except E T × Nat :=
  match op attempts with
  | .ok v => (.ok v, attempts + 1)
  | .error e =>
    if max_retries ≤ attempts + 1 then
      (.error e, attempts + 1)
    else
      RetryPolicy.executeFrom op max_retries (attempts + 1)
termination_by max_retries - attempts
decreasing_by simp_wf; omega

/-- `RetryPolicy::execute` (instrumented with the attempt count). -/
def RetryPolicy.execute {E T : Type} (p : RetryPolicy) (op : Nat → Except E T) :
    Except E T × Nat :=
  RetryPolicy.executeFrom op p.max_retries 0

/-- `InterviewContext` from `agents/mod.rs`. -/
structure ConversationTurn where
  role : InterviewerRole
  role_name : String
  question : String
  answer : Option String
  analysis : Option AnalysisResult
deriving DecidableEq, Repr

/-- `InterviewContext` from `agents/mod.rs`. -/
structure InterviewContext where
  resume : String
  job_description : String
  conversation_history : List ConversationTurn
  current_phase : InterviewPhase
deriving DecidableEq, Repr

/-- The user prompt built by each agent's `analyze_answer`. -/
def analysisPrompt (question answer : String) : String :=
  "问题：" ++ question ++ "\n\n候选人回答：" ++ answer ++ "\n\n请分析回答质量并输出JSON格式结果。"

/-- The fallback `AnalysisResult` of `TechInterviewer::analyze_answer`. -/
def techFallback : AnalysisResult :=
  { score := 7,
    strengths := ["回答完整"],
    improvements := ["可以更详细展开"],
    summary := "回答基本到位，有改进空间。" }

/-- The fallback `AnalysisResult` of `HRInterviewer::analyze_answer`. -/
def hrFallback : AnalysisResult :=
  { score := 15/2,
    strengths := ["案例真实"],
    improvements := ["可以更结构化表达"],
    summary := "候选人具备基本的软技能。" }

/-- The fallback `AnalysisResult` of `BusinessInterviewer::analyze_answer`. -/
def businessFallback : AnalysisResult :=
  { score := 15/2,
    strengths := ["思路清晰"],
    improvements := ["可以更关注业务指标"],
    summary := "候选人对业务有基本理解。" }

/-- Common shape of `analyze_answer` in `tech.rs`, `hr.rs` and `business.rs`:
prompt the upstream model, then parse the response as JSON, substituting the
agent's fixed fallback on parse failure.  The upstream client (`agent.prompt`)
and `serde_json::from_str` are external libraries, modelled as the function
parameters `llm` and `parse`. -/
def agentAnalyzeAnswer (llm : String → Except String String)
    (parse : String → Option AnalysisResult) (fallback : AnalysisResult)
    (question answer : String) : Except String AnalysisResult :=
  match llm (analysisPrompt question answer) with
  | .error e => .error e
  | .ok response => .ok ((parse response).getD fallback)

/-- `TechInterviewer::analyze_answer` (context parameter unused by the source). -/
def TechInterviewer.analyze_answer (llm : String → Except String String)
    (parse : String → Option AnalysisResult) (question answer : String)
    (_context : InterviewContext) : Except String AnalysisResult :=
  agentAnalyzeAnswer llm parse techFallback question answer

/-- `HRInterviewer::analyze_answer`. -/
def HRInterviewer.analyze_answer (llm : String → Except String String)
    (parse : String → Option AnalysisResult) (question answer : String)
    (_context : InterviewContext) : Except String AnalysisResult :=
  agentAnalyzeAnswer llm parse hrFallback question answer

/-- `BusinessInterviewer::analyze_answer`. -/
def BusinessInterviewer.analyze_answer (llm : String → Except String String)
    (parse : String → Option AnalysisResult) (question answer : String)
    (_context : InterviewContext) : Except String AnalysisResult :=
  agentAnalyzeAnswer llm parse businessFallback question answer

/-- Decidable equality for `Except`, used to evaluate concrete results. -/
instance instDecEqExcept {e a : Type} [DecidableEq e] [DecidableEq a] :
    DecidableEq (Except e a) := fun x y =>
  match x, y with
  | .ok u, .ok v =>
    if h : u = v then .isTrue (by rw [h]) else .isFalse (by simp [h])
  | .error u, .error v =>
    if h : u = v then .isTrue (by rw [h]) else .isFalse (by simp [h])
  | .ok _, .error _ => .isFalse (by simp)
  | .error _, .ok _ => .isFalse (by simp)

/-- A row of the `knowledge_vectors` table (`rag/vectordb.rs`); `f32` vector
entries modelled as `ℚ`.  Row ids are the SQLite rowids, hence unique. -/
structure KnowledgeRow where
  id : Nat
  content_type : String
  content : String
  embedding : List ℚ
  metadata : Option String
deriving DecidableEq, Repr

/-- `SearchResult` from `rag/vectordb.rs`. -/
structure SearchResult where
  id : Nat
  content : String
  content_type : String
  metadata : Option String
  similarity : ℚ
deriving DecidableEq, Repr

/-- `VectorStore`: the backing table plus the optional in-memory index.  The
HNSW index is modelled by the snapshot of `(id, embedding)` pairs it was built
from. -/
structure VectorStore where
  rows : List KnowledgeRow
  index : Option (List (Nat × List ℚ))
deriving DecidableEq, Repr

/-- Ascending order on the distance component of an index candidate. -/
def distLe (a b : Nat × ℚ) : Prop := a.2 ≤ b.2

instance distLe.instDecidableRel : DecidableRel distLe :=
  fun a b => inferInstanceAs (Decidable (a.2 ≤ b.2))

instance distLe.instIsTotal : IsTotal (Nat × ℚ) distLe :=
  ⟨fun a b => le_total a.2 b.2⟩

instance distLe.instIsTrans : IsTrans (Nat × ℚ) distLe :=
  ⟨fun _ _ _ => le_trans⟩

/-- `Hnsw::search(data, knbn, ef)` from the external `hnsw_rs` crate, modelled
as exact nearest-neighbour search (which HNSW approximates): every indexed
point paired with its distance to the query, sorted by ascending distance
(stable insertion sort standing for the index's natural return order), and
truncated to the `knbn` requested neighbours.  The distance function is a
parameter (the crate uses `DistCosine`, whose square roots leave `ℚ`); the
search-breadth parameter `ef` does not affect which neighbours are requested
and is ignored by the model. -/
def hnswSearch (dist : List ℚ → List ℚ → ℚ) (idx : List (Nat × List ℚ))
    (embedding : List ℚ) (knbn : Nat) (_ef : Nat) : List (Nat × ℚ) :=
  (List.insertionSort distLe (idx.map (fun p => (p.1, dist embedding p.2)))).take knbn

/-- `VectorStore::build_index`: reads every row; when the table is empty it
returns `Ok(())` immediately without touching the index, otherwise it installs
the fresh snapshot. -/
def VectorStore.build_index (s : VectorStore) : VectorStore × Except String Unit :=
  let embeddings := s.rows.map (fun r => (r.id, r.embedding))
  if embeddings.isEmpty then
    (s, .ok ())
  else
    ({ s with index := some embeddings }, .ok ())

/-- The per-neighbour SQL lookup performed by `VectorStore::search`:
`SELECT ... WHERE id = ?1 [AND content_type = ct]`, rows that do not match
being skipped. -/
def searchLookup (rows : List KnowledgeRow) (content_type : Option String)
    (neighbor : Nat × ℚ) : Option SearchResult :=
  match rows.find? (fun r =>
      r.id == neighbor.1 &&
        match content_type with
        | some ct => r.content_type == ct
        | none => true) with
  | some r =>
    some { id := r.id, content := r.content, content_type := r.content_type,
           metadata := r.metadata, similarity := 1 - neighbor.2 }
  | none => none

/-- `VectorStore::search`: fails when no index is installed; otherwise asks
the index for the `top_k` nearest neighbours (passing `ef_search =
max(2k, 50)` as the breadth parameter), then resolves each neighbour id
against the table, dropping rows of the wrong content type. -/
def VectorStore.search (dist : List ℚ → List ℚ → ℚ) (s : VectorStore)
    (embedding : List ℚ) (top_k : Nat) (content_type : Option String) :
    Except String (List SearchResult) :=
  match s.index with
  | none => .error "Index not built"
  | some idx =>
    let ef_search := Nat.max (top_k * 2) 50
    let neighbors := hnswSearch dist idx embedding top_k ef_search
    .ok (neighbors.filterMap (searchLookup s.rows content_type))

/-- Search as worded by the specification, for the C4 refinement comparison:
fetch `max(2k, 50)` candidates from the index (the stated over-fetch meant to
absorb filtering losses), filter them to the requested content type, and
truncate to `k`. -/
def VectorStore.searchSpec (dist : List ℚ → List ℚ → ℚ) (s : VectorStore)
    (embedding : List ℚ) (top_k : Nat) (content_type : Option String) :
    Except String (List SearchResult) :=
  match s.index with
  | none => .error "Index not built"
  | some idx =>
    let fetch := Nat.max (top_k * 2) 50
    let candidates := hnswSearch dist idx embedding fetch fetch
    .ok ((candidates.filterMap (searchLookup s.rows content_type)).take top_k)

/-- Test fixture: one-dimensional distance on the first vector component
(query points sit at the origin, so no absolute value is needed). -/
def dist1 (a b : List ℚ) : ℚ := b.headD 0 - a.headD 0

/-- Test fixture: a store holding one `jd` row and two `question` rows, the
`jd` row nearest to the query `[0]`. -/
def storeJQQ : VectorStore :=
  { rows :=
      [ { id := 1, content_type := "jd", content := "j", embedding := [0],
          metadata := none },
        { id := 2, content_type := "question", content := "q1", embedding := [1],
          metadata := none },
        { id := 3, content_type := "question", content := "q2", embedding := [2],
          metadata := none } ],
    index := none }

/-- Errors produced by the scheduler embedding (`rig_adapter/scheduler.rs`).
`noAgent` models the Rust panic of indexing an empty agent vector; `anyhowMsg`
models an `anyhow!` error with its message. -/
inductive SchedErr
  | noAgent
  | anyhowMsg (msg : String)
deriving DecidableEq, Repr

/-- An interviewer agent (`Box<dyn InterviewerAgent>`): the trait object is
modelled as a record of its methods, with the question generation and answer
analysis behaviour as functions. -/
structure Agent where
  role : InterviewerRole
  role_name : String
  generate_question : InterviewContext → Except SchedErr String
  analyze_answer : String → String → InterviewContext → Except SchedErr AnalysisResult

/-- `AgentScheduler` (rotation strategy omitted: `execute_turn` and
`process_answer` never consult it). -/
structure AgentScheduler where
  agents : List Agent
  current_index : Nat

/-- `AgentScheduler::current_agent` (`self.agents[self.current_index]`;
out-of-bounds indexing, a Rust panic, is modelled as `none`). -/
def AgentScheduler.current_agent (s : AgentScheduler) : Option Agent :=
  s.agents[s.current_index]?

/-- Overwrite the last element of a list in place. -/
def updateLast {α : Type} (f : α → α) : List α → List α
  | [] => []
  | [a] => [f a]
  | a :: b :: rest => a :: updateLast f (b :: rest)

/-- The fresh turn created by `execute_turn`: the agent's role and name, the
generated question, no answer, no analysis. -/
def newTurn (agent : Agent) (question : String) : ConversationTurn :=
  { role := agent.role, role_name := agent.role_name, question := question,
    answer := none, analysis := none }

/-- Appending a turn to the conversation history
(`context.conversation_history.push(turn)`). -/
def appendTurn (ctx : InterviewContext) (turn : ConversationTurn) : InterviewContext :=
  { ctx with conversation_history := ctx.conversation_history ++ [turn] }

/-- Recording an answer on the last turn
(`last_turn.answer = Some(answer)` through `last_mut`). -/
def recordAnswer (ctx : InterviewContext) (answer : String) : InterviewContext :=
  let hist1 :=
    updateLast (fun t => { t with answer := some answer }) ctx.conversation_history
  { ctx with conversation_history := hist1 }

/-- Attaching an analysis to the last turn
(`last_turn.analysis = Some(analysis.clone())`). -/
def attachAnalysis (ctx : InterviewContext) (analysis : AnalysisResult) : InterviewContext :=
  let hist2 :=
    updateLast (fun t => { t with analysis := some analysis }) ctx.conversation_history
  { ctx with conversation_history := hist2 }

/-- `AgentScheduler::execute_turn`: asks the current agent for a question; on
failure the `?` operator returns before any mutation, on success a fresh
answer-less turn is appended to the conversation history. -/
def AgentScheduler.execute_turn (s : AgentScheduler) (ctx : InterviewContext) :
    InterviewContext × Except SchedErr ConversationTurn :=
  match s.current_agent with
  | none => (ctx, .error .noAgent)
  | some agent =>
    match agent.generate_question ctx with
    | .error e => (ctx, .error e)
    | .ok question =>
      let turn := newTurn agent question
      (appendTurn ctx turn, .ok turn)

/-- `AgentScheduler::process_answer`: errors only when the history is empty
(`anyhow!("No conversation turn")`); otherwise records the answer on the last
turn — whether or not that turn already had one — extracts its question,
analyzes, and attaches the analysis on success. -/
def AgentScheduler.process_answer (s : AgentScheduler) (ctx : InterviewContext)
    (answer : String) : InterviewContext × Except SchedErr AnalysisResult :=
  match s.current_agent with
  | none => (ctx, .error .noAgent)
  | some agent =>
    match ctx.conversation_history.getLast? with
    | none => (ctx, .error (.anyhowMsg "No conversation turn"))
    | some last_turn =>
      let question := last_turn.question
      let ctx1 := recordAnswer ctx answer
      match agent.analyze_answer question answer ctx1 with
      | .error e => (ctx1, .error e)
      | .ok analysis => (attachAnalysis ctx1 analysis, .ok analysis)

/-- Test fixture: the fixed analysis returned by the stub agent. -/
def stubAnalysis : AnalysisResult :=
  { score := 8, strengths := ["s"], improvements := ["i"], summary := "ok" }

/-- Test fixture: an agent that always generates the question "q1" and always
returns `stubAnalysis`. -/
def stubAgent : Agent :=
  { role := .HR, role_name := "HR面试官",
    generate_question := fun _ => .ok "q1",
    analyze_answer := fun _ _ _ => .ok stubAnalysis }

/-- Test fixture: a one-agent scheduler over `stubAgent`. -/
def stubScheduler : AgentScheduler :=
  { agents := [stubAgent], current_index := 0 }

/-- Test fixture: an empty interview context. -/
def emptyCtx : InterviewContext :=
  { resume := "", job_description := "", conversation_history := [],
    current_phase := .WarmUp }

/-- Outcome of one underlying RAG initialization attempt
(`RagService::do_init` under `tokio::time::timeout`). -/
inductive InitOutcome
  | success
  | failure (msg : String)
  | timeout
deriving DecidableEq, Repr

/-- Errors surfaced by `RagService::ensure_initialized`. -/
inductive RagErr
  | previouslyFailed
  | initTimedOut
  | initError (msg : String)
deriving DecidableEq, Repr

/-- The mutable state of `RagService` relevant to initialization:
`internals_ready` models whether the `OnceCell` holds a value, `init_failed`
the `AtomicBool`. -/
structure RagState where
  internals_ready : Bool
  init_failed : Bool
deriving DecidableEq, Repr

/-- `RagService::new`: uninitialized, failure flag clear. -/
def RagService.new : RagState :=
  { internals_ready := false, init_failed := false }

/-- `RagService::ensure_initialized` (`rag/service.rs:52-67`): fast-fails when
`init_failed` is set; otherwise runs `do_init` under the timeout.  `do_init`
returns the `OnceCell` value if already set; otherwise the underlying attempt
is summarized by `outcome` — success installs the internals, a non-timeout
error leaves both the cell and the flag untouched (`get_or_try_init` does not
latch errors), and only a timeout sets `init_failed`. -/
def RagService.ensure_initialized (st : RagState) (outcome : InitOutcome) :
    RagState × Except RagErr Unit :=
  if st.init_failed then
    (st, .error .previouslyFailed)
  else if st.internals_ready then
    (st, .ok ())
  else
    match outcome with
    | .success => ({ st with internals_ready := true }, .ok ())
    | .failure msg => (st, .error (.initError msg))
    | .timeout => ({ st with init_failed := true }, .error .initTimedOut)

/-- The common prefix of every `RagService` operation: `ensure_initialized`
followed, on success, by the operation body (left abstract, since embedding
and index search on the internals are irrelevant to the sticky-failure
claim). -/
def RagService.ragCall {α : Type} (st : RagState) (outcome : InitOutcome)
    (rest : Except RagErr α) : RagState × Except RagErr α :=
  match RagService.ensure_initialized st outcome with
  | (st1, .error e) => (st1, .error e)
  | (st1, .ok ()) => (st1, rest)

/-- `RagService::embed_and_store`. -/
def RagService.embed_and_store (st : RagState) (outcome : InitOutcome)
    (rest : Except RagErr Int) : RagState × Except RagErr Int :=
  RagService.ragCall st outcome rest

/-- `RagService::retrieve_similar_questions`. -/
def RagService.retrieve_similar_questions (st : RagState) (outcome : InitOutcome)
    (rest : Except RagErr (List SearchResult)) :
    RagState × Except RagErr (List SearchResult) :=
  RagService.ragCall st outcome rest

/-- `RagService::retrieve_best_answers`. -/
def RagService.retrieve_best_answers (st : RagState) (outcome : InitOutcome)
    (rest : Except RagErr (List SearchResult)) :
    RagState × Except RagErr (List SearchResult) :=
  RagService.ragCall st outcome rest

/-- `RagService::retrieve_similar_jd`. -/
def RagService.retrieve_similar_jd (st : RagState) (outcome : InitOutcome)
    (rest : Except RagErr (List SearchResult)) :
    RagState × Except RagErr (List SearchResult) :=
  RagService.ragCall st outcome rest

/-- `RagService::rebuild_index`. -/
def RagService.rebuild_index (st : RagState) (outcome : InitOutcome)
    (rest : Except RagErr Unit) : RagState × Except RagErr Unit :=
  RagService.ragCall st outcome rest

/-- Program counter of one caller inside `RequestDeduplicator::deduplicate`
(`api/dedup.rs:27-70`), one value per await point:
`start` — before the pending-map lookup/insert (the block holding the map's
write lock); `locking c` — holds the `Arc` of result cell `c` and is waiting
on its mutex; `running c` — acquired the mutex with the cell empty and is
executing the wrapped operation; `removing c r` — stored result `r` in the
cell and is about to remove the key from the pending map (still holding the
mutex, which is released when the function returns); `done r` — returned `r`. -/
inductive DedupPc
  | start
  | locking (c : Nat)
  | running (c : Nat)
  | removing (c : Nat) (r : Nat)
  | done (r : Nat)
deriving DecidableEq, Repr

/-- Whether a caller has returned. -/
def DedupPc.isDone : DedupPc → Bool
  | .done _ => true
  | _ => false

/-- One result cell (`Arc<Mutex<Option<Result>>>`): its contents and the
caller currently holding its mutex.  Results are modelled by `Nat` values. -/
structure DedupCell where
  contents : Option Nat
  holder : Option Nat
deriving DecidableEq, Repr

/-- Global state of the deduplicator for one key and a set of callers.
`pending` is the key's entry in the pending map (the index of the cell it
maps to); `cells` are all allocated cells; `execCount` instruments how many
times the wrapped operation has run; `removed` instruments whether some
executor has already removed the key; `lateStart` instruments whether some
caller performed its map lookup after a removal (i.e. outside the concurrency
window of the first execution). -/
structure DedupState where
  pending : Option Nat
  cells : List DedupCell
  execCount : Nat
  removed : Bool
  lateStart : Bool
  pcs : List DedupPc
deriving DecidableEq, Repr

/-- One atomic step of caller `i`, scheduled nondeterministically.  `exec k`
is the result of the `k`-th execution of the wrapped operation (the operation
itself touches no deduplicator state).  A caller whose transition is not
enabled (waiting on a held mutex) or whose index is invalid leaves the state
unchanged. -/
def dedupStep (exec : Nat → Nat) (s : DedupState) (i : Nat) : DedupState :=
  match s.pcs[i]? with
  | none => s
  | some pc =>
    match pc with
    | .start =>
      match s.pending with
      | some c =>
        { s with pcs := s.pcs.set i (.locking c),
                 lateStart := s.lateStart || s.removed }
      | none =>
        let c := s.cells.length
        { s with pending := some c,
                 cells := s.cells ++ [{ contents := none, holder := none }],
                 pcs := s.pcs.set i (.locking c),
                 lateStart := s.lateStart || s.removed }
    | .locking c =>
      match s.cells[c]? with
      | none => s
      | some cell =>
        match cell.holder with
        | some _ => s
        | none =>
          match cell.contents with
          | some r => { s with pcs := s.pcs.set i (.done r) }
          | none =>
            { s with cells := s.cells.set c { cell with holder := some i },
                     pcs := s.pcs.set i (.running c) }
    | .running c =>
      match s.cells[c]? with
      | none => s
      | some cell =>
        let r := exec s.execCount
        { s with cells := s.cells.set c { cell with contents := some r },
                 execCount := s.execCount + 1,
                 pcs := s.pcs.set i (.removing c r) }
    | .removing c r =>
      match s.cells[c]? with
      | none => s
      | some cell =>
        { s with pending := none,
                 cells := s.cells.set c { cell with holder := none },
                 removed := true,
                 pcs := s.pcs.set i (.done r) }
    | .done _ => s

/-- Run a schedule (a list of caller indices) from a state. -/
def dedupRun (exec : Nat → Nat) (sched : List Nat) (s : DedupState) : DedupState :=
  sched.foldl (dedupStep exec) s

/-- Initial state for `n` callers of `deduplicate` with the same key. -/
def dedupInit (n : Nat) : DedupState :=
  { pending := none, cells := [], execCount := 0, removed := false,
    lateStart := false, pcs := List.replicate n .start }

/-- Deduplicator invariant, phase 0: no caller has touched the map yet. -/
def InvPhase0 (s : DedupState) : Prop :=
  s.cells = [] ∧ s.pending = none ∧ s.execCount = 0 ∧ s.removed = false ∧
  ∀ pc ∈ s.pcs, pc = DedupPc.start

/-- Phase 1a: the cell exists, nobody holds its mutex, nothing executed. -/
def InvPhase1a (s : DedupState) : Prop :=
  s.cells = [{ contents := none, holder := none }] ∧ s.pending = some 0 ∧
  s.execCount = 0 ∧ s.removed = false ∧
  ∀ pc ∈ s.pcs, pc = DedupPc.start ∨ pc = DedupPc.locking 0

/-- Phase 1b: a unique executor holds the mutex and is running the
operation. -/
def InvPhase1b (s : DedupState) : Prop :=
  ∃ ex, s.cells = [{ contents := none, holder := some ex }] ∧
    s.pending = some 0 ∧ s.execCount = 0 ∧ s.removed = false ∧
    s.pcs[ex]? = some (DedupPc.running 0) ∧
    ∀ j pc, s.pcs[j]? = some pc →
      pc = DedupPc.start ∨ pc = DedupPc.locking 0 ∨
        (j = ex ∧ pc = DedupPc.running 0)

/-- Phase 2: the executor has stored the first execution's result and still
holds the mutex; the key is still in the map. -/
def InvPhase2 (exec : Nat → Nat) (s : DedupState) : Prop :=
  ∃ ex, s.cells = [{ contents := some (exec 0), holder := some ex }] ∧
    s.pending = some 0 ∧ s.execCount = 1 ∧ s.removed = false ∧
    s.pcs[ex]? = some (DedupPc.removing 0 (exec 0)) ∧
    ∀ j pc, s.pcs[j]? = some pc →
      pc = DedupPc.start ∨ pc = DedupPc.locking 0 ∨
        (j = ex ∧ pc = DedupPc.removing 0 (exec 0))

/-- Phase 3: the key has been removed; the settled cell serves the stored
result to the remaining waiters. -/
def InvPhase3 (exec : Nat → Nat) (s : DedupState) : Prop :=
  s.cells = [{ contents := some (exec 0), holder := none }] ∧
  s.pending = none ∧ s.execCount = 1 ∧ s.removed = true ∧
  ∀ pc ∈ s.pcs, pc = DedupPc.start ∨ pc = DedupPc.locking 0 ∨
    pc = DedupPc.done (exec 0)

/-- The deduplicator invariant: holds of every state reachable from
`dedupInit` without a late start. -/
def DedupInv (exec : Nat → Nat) (s : DedupState) : Prop :=
  InvPhase0 s ∨ InvPhase1a s ∨ InvPhase1b s ∨ InvPhase2 exec s ∨ InvPhase3 exec s

/-- Test fixture: a turn that already carries an answer. -/
def answeredTurn : ConversationTurn :=
  { role := .HR, role_name := "HR面试官", question := "q1",
    answer := some "a1", analysis := none }

/-- Test fixture: a context whose single (last) turn is already answered. -/
def ctxAnswered : InterviewContext :=
  { resume := "", job_description := "", conversation_history := [answeredTurn],
    current_phase := .WarmUp }

/-- Test fixture: a RAG state latched by a previous initialization timeout. -/
def ragLatched : RagState :=
  { internals_ready := false, init_failed := true }

/-- Test fixture: a state machine in the `Technical` phase with 3 questions
asked in the phase. -/
def smTech3 : InterviewStateMachine :=
  { current_phase := .Technical,
    phase_question_count := 3,
    total_question_count := 4,
    phase_configs := InterviewStateMachine.default_configs }

/-- Test fixture: an analysis scoring exactly `8.0`. -/
def analysis8 : AnalysisResult :=
  { score := 8, strengths := [], improvements := [], summary := "" }

/-- Test fixture: an analysis scoring `7.9`. -/
def analysis79 : AnalysisResult :=
  { score := 79/10, strengths := [], improvements := [], summary := "" }

/-- The `Technical` entry of `default_configs`. -/
def cfgTechnical : PhaseConfig :=
  { phase := .Technical, min_questions := 3, max_questions := 5,
    primary_role := .Technical }

/-- The `WarmUp` entry of `default_configs`. -/
def cfgWarmUp : PhaseConfig :=
  { phase := .WarmUp, min_questions := 1, max_questions := 2, primary_role := .HR }

/-- An always-failing operation: the loop runs until `attempts` reaches
`max_retries` and surfaces the error of the final attempt. -/
theorem executeFrom_allFail {E T : Type} (op : Nat → Except E T) (errf : Nat → E)
    (hop : ∀ n, op n = .error (errf n)) :
    ∀ k attempts max_retries, max_retries - attempts = k → attempts < max_retries →
      RetryPolicy.executeFrom op max_retries attempts =
        (.error (errf (max_retries - 1)), max_retries) := by
  intro k
  induction k with
  | zero =>
    intro attempts max_retries hk hlt
    omega
  | succ k ih =>
    intro attempts max_retries hk hlt
    rw [RetryPolicy.executeFrom, hop attempts]
    by_cases hstop : max_retries ≤ attempts + 1
    · have h2 : attempts = max_retries - 1 := by omega
      subst h2
      have h3 : max_retries - 1 + 1 = max_retries := by omega
      simp [hstop, h3]
    · simp only [if_neg hstop]
      exact ih (attempts + 1) max_retries (by omega) (by omega)

/-- An operation failing on every attempt before `max_retries - 1` and
succeeding on attempt `max_retries - 1` makes the loop return that success. -/
theorem executeFrom_eventualOk {E T : Type} (op : Nat → Except E T) (v : T)
    (max_retries : Nat) (hpos : 1 ≤ max_retries)
    (hfail : ∀ n, n < max_retries - 1 → ∃ e, op n = .error e)
    (hok : op (max_retries - 1) = .ok v) :
    ∀ k attempts, max_retries - attempts = k → attempts ≤ max_retries - 1 →
      RetryPolicy.executeFrom op max_retries attempts = (.ok v, max_retries) := by
  intro k
  induction k with
  | zero =>
    intro attempts hk hle
    omega
  | succ k ih =>
    intro attempts hk hle
    rcases Nat.lt_or_ge attempts (max_retries - 1) with hlt | hge
    · obtain ⟨e, he⟩ := hfail attempts hlt
      rw [RetryPolicy.executeFrom, he]
      have hstop : ¬ max_retries ≤ attempts + 1 := by omega
      simp only [if_neg hstop]
      exact ih (attempts + 1) (by omega) (by omega)
    · have heq : attempts = max_retries - 1 := by omega
      subst heq
      rw [RetryPolicy.executeFrom, hok]
      have : max_retries - 1 + 1 = max_retries := by omega
      simp [this]

/-- C5: with at least one allowed attempt, an operation failing exactly
`max_retries - 1` times and then succeeding makes `RetryPolicy::execute`
return the success value after exactly `max_retries` invocations, and an
always-failing operation is invoked exactly `max_retries` times with the final
result being the last underlying error, unchanged. -/
theorem C5_retry_policy {E T : Type} (p : RetryPolicy) (op : Nat → Except E T)
    (hpos : 1 ≤ p.max_retries) :
    (∀ v : T, (∀ n, n < p.max_retries - 1 → ∃ e, op n = .error e) →
      op (p.max_retries - 1) = .ok v →
      p.execute op = (.ok v, p.max_retries)) ∧
    (∀ errf : Nat → E, (∀ n, op n = .error (errf n)) →
      p.execute op = (.error (errf (p.max_retries - 1)), p.max_retries)) := by
  constructor
  · intro v hfail hok
    exact executeFrom_eventualOk op v p.max_retries hpos hfail hok
      (p.max_retries - 0) 0 rfl (by omega)
  · intro errf hop
    exact executeFrom_allFail op errf hop (p.max_retries - 0) 0 p.max_retries rfl (by omega)

/-- Concrete instantiation of `C5_retry_policy` with the default policy
(`max_retries = 3`): two failures then success yields the success value in
three invocations; always failing yields the third error in three invocations. -/
theorem C5_retry_policy_witness :
    RetryPolicy.default.execute
        (fun n => if n < 2 then (.error "boom" : Except String Nat) else .ok 42) =
      (.ok 42, 3) ∧
    RetryPolicy.default.execute (fun n => (.error (toString n) : Except String Nat)) =
      (.error "2", 3) := by
  constructor
  · exact (C5_retry_policy RetryPolicy.default
      (fun n => if n < 2 then (.error "boom" : Except String Nat) else .ok 42)
      (by decide)).1 42
      (fun n hn => ⟨"boom", if_pos hn⟩)
      (by rfl)
  · exact (C5_retry_policy RetryPolicy.default
      (fun n => (.error (toString n) : Except String Nat)) (by decide)).2
      (fun n => toString n) (fun n => rfl)


/-- `advance_phase` from any non-`Completed` phase returns the successor phase,
installs it, and resets the per-phase counter. -/
theorem advance_phase_of_ne_completed (sm : InterviewStateMachine)
    (hph : sm.current_phase ≠ .Completed) :
    ∃ p, sm.advance_phase =
      (some p, { sm with current_phase := p, phase_question_count := 0 }) ∧
      p ≠ sm.current_phase := by
  cases hc : sm.current_phase <;>
    simp_all [InterviewStateMachine.advance_phase, hc]

/-- C6: in any phase that has a configuration (every phase except `Completed`),
`maybe_advance` advances the phase exactly when the per-phase question count
has reached the phase's `min_questions` and the analysis score is at least
`8.0`; when it does not advance, the machine is unchanged; when it advances,
the returned phase is installed and differs from the previous one. -/
theorem C6_maybe_advance (sm : InterviewStateMachine) (analysis : AnalysisResult)
    (hph : sm.current_phase ≠ .Completed)
    (current_config : PhaseConfig)
    (hfind : sm.phase_configs.find? (fun c => c.phase == sm.current_phase) =
      some current_config) :
    ((sm.maybe_advance analysis).1.isSome ↔
      (current_config.min_questions ≤ sm.phase_question_count ∧
        (8 : ℚ) ≤ analysis.score)) ∧
    ((sm.maybe_advance analysis).1 = none → (sm.maybe_advance analysis).2 = sm) ∧
    (∀ p, (sm.maybe_advance analysis).1 = some p →
      (sm.maybe_advance analysis).2.current_phase = p ∧ p ≠ sm.current_phase) := by
  obtain ⟨p, hadv, hne⟩ := advance_phase_of_ne_completed sm hph
  simp only [InterviewStateMachine.maybe_advance, hfind]
  by_cases hcond : current_config.min_questions ≤ sm.phase_question_count ∧
      (8 : ℚ) ≤ analysis.score
  · rw [if_pos hcond, hadv]
    refine ⟨by simp [hcond], by simp, ?_⟩
    intro q hq
    simp only [Option.some.injEq] at hq
    subst hq
    exact ⟨rfl, hne⟩
  · rw [if_neg hcond]
    exact ⟨by simpa using hcond, fun _ => rfl, fun q hq => by simp at hq⟩

/-- Concrete instantiation of `C6_maybe_advance`: `Technical` phase,
3 questions asked, `min_questions = 3`. -/
theorem C6_maybe_advance_witness :
    ((smTech3.maybe_advance analysis8).1.isSome ↔
      (cfgTechnical.min_questions ≤ smTech3.phase_question_count ∧
        (8 : ℚ) ≤ analysis8.score)) ∧
    ((smTech3.maybe_advance analysis8).1 = none →
      (smTech3.maybe_advance analysis8).2 = smTech3) ∧
    (∀ p, (smTech3.maybe_advance analysis8).1 = some p →
      (smTech3.maybe_advance analysis8).2.current_phase = p ∧
        p ≠ smTech3.current_phase) :=
  C6_maybe_advance smTech3 analysis8 (by decide) cfgTechnical (by decide)

/-- C7: in any phase that has a configuration, `record_question` increments
both counters (shown here below the `u32` wrap-around bound) and forces a
phase advance exactly when the incremented per-phase count has reached the
phase's `max_questions`; moreover, from the freshly created machine (`WarmUp`,
`min = 1`, `max = 2`), two `record_question` calls transition to `Technical`
exactly on the second call. -/
theorem C7_record_question (sm : InterviewStateMachine)
    (hph : sm.current_phase ≠ .Completed)
    (hpc : sm.phase_question_count + 1 < 4294967296)
    (htc : sm.total_question_count + 1 < 4294967296)
    (current_config : PhaseConfig)
    (hfind : sm.phase_configs.find? (fun c => c.phase == sm.current_phase) =
      some current_config) :
    ((sm.record_question).2.total_question_count = sm.total_question_count + 1) ∧
    ((sm.record_question).1.isSome ↔
      current_config.max_questions ≤ sm.phase_question_count + 1) ∧
    ((sm.record_question).1 = none →
      (sm.record_question).2.phase_question_count = sm.phase_question_count + 1 ∧
      (sm.record_question).2.current_phase = sm.current_phase) ∧
    (∀ p, (sm.record_question).1 = some p →
      (sm.record_question).2.current_phase = p ∧ p ≠ sm.current_phase) ∧
    ((InterviewStateMachine.new.record_question).1 = none ∧
      ((InterviewStateMachine.new.record_question).2.record_question).1 =
        some .Technical ∧
      ((InterviewStateMachine.new.record_question).2.record_question).2.current_phase =
        .Technical) := by
  simp only [InterviewStateMachine.record_question]
  rw [show wrap32 (sm.phase_question_count + 1) = sm.phase_question_count + 1 from
        Nat.mod_eq_of_lt hpc,
      show wrap32 (sm.total_question_count + 1) = sm.total_question_count + 1 from
        Nat.mod_eq_of_lt htc]
  simp only [hfind]
  obtain ⟨p, hadv, hne⟩ := advance_phase_of_ne_completed
    { sm with phase_question_count := sm.phase_question_count + 1,
              total_question_count := sm.total_question_count + 1 }
    hph
  by_cases hcond : current_config.max_questions ≤ sm.phase_question_count + 1
  · rw [if_pos hcond, hadv]
    refine ⟨rfl, by simp [hcond], by simp, ?_, by decide⟩
    intro q hq
    simp only [Option.some.injEq] at hq
    subst hq
    exact ⟨rfl, hne⟩
  · rw [if_neg hcond]
    exact ⟨rfl, by simpa using hcond, fun _ => ⟨rfl, rfl⟩,
      fun q hq => by simp at hq, by decide⟩

/-- Concrete instantiation of `C7_record_question` on the fresh machine
(`WarmUp` phase, `max_questions = 2`, no questions asked yet). -/
theorem C7_record_question_witness :
    ((InterviewStateMachine.new.record_question).2.total_question_count =
      InterviewStateMachine.new.total_question_count + 1) ∧
    ((InterviewStateMachine.new.record_question).1.isSome ↔
      cfgWarmUp.max_questions ≤ InterviewStateMachine.new.phase_question_count + 1) ∧
    ((InterviewStateMachine.new.record_question).1 = none →
      (InterviewStateMachine.new.record_question).2.phase_question_count =
        InterviewStateMachine.new.phase_question_count + 1 ∧
      (InterviewStateMachine.new.record_question).2.current_phase =
        InterviewStateMachine.new.current_phase) ∧
    (∀ p, (InterviewStateMachine.new.record_question).1 = some p →
      (InterviewStateMachine.new.record_question).2.current_phase = p ∧
        p ≠ InterviewStateMachine.new.current_phase) ∧
    ((InterviewStateMachine.new.record_question).1 = none ∧
      ((InterviewStateMachine.new.record_question).2.record_question).1 =
        some .Technical ∧
      ((InterviewStateMachine.new.record_question).2.record_question).2.current_phase =
        .Technical) :=
  C7_record_question InterviewStateMachine.new (by decide) (by decide) (by decide)
    cfgWarmUp (by decide)

/-- C8: whenever the upstream model returns a response string that the JSON
parser rejects, each agent's `analyze_answer` returns that agent's fixed
role-flavored fallback `AnalysisResult` as a success (technical agent scores
`7.0`, HR and business agents `7.5`); no parse error is propagated. -/
theorem C8_analysis_fallback (llm : String → Except String String)
    (parse : String → Option AnalysisResult) (question answer response : String)
    (context : InterviewContext)
    (hok : llm (analysisPrompt question answer) = .ok response)
    (hparse : parse response = none) :
    TechInterviewer.analyze_answer llm parse question answer context =
      .ok techFallback ∧
    HRInterviewer.analyze_answer llm parse question answer context =
      .ok hrFallback ∧
    BusinessInterviewer.analyze_answer llm parse question answer context =
      .ok businessFallback ∧
    techFallback.score = 7 ∧ hrFallback.score = 15/2 ∧ businessFallback.score = 15/2 := by
  refine ⟨?_, ?_, ?_, rfl, rfl, rfl⟩ <;>
    simp [TechInterviewer.analyze_answer, HRInterviewer.analyze_answer,
      BusinessInterviewer.analyze_answer, agentAnalyzeAnswer, hok, hparse]

/-- Concrete instantiation of `C8_analysis_fallback`: an upstream client that
replies with plain text, and a parser that rejects it. -/
theorem C8_analysis_fallback_witness :
    TechInterviewer.analyze_answer (fun _ => .ok "这不是JSON")
        (fun _ => none) "问题" "回答"
        { resume := "", job_description := "", conversation_history := [],
          current_phase := .WarmUp } =
      .ok techFallback ∧
    HRInterviewer.analyze_answer (fun _ => .ok "这不是JSON")
        (fun _ => none) "问题" "回答"
        { resume := "", job_description := "", conversation_history := [],
          current_phase := .WarmUp } =
      .ok hrFallback ∧
    BusinessInterviewer.analyze_answer (fun _ => .ok "这不是JSON")
        (fun _ => none) "问题" "回答"
        { resume := "", job_description := "", conversation_history := [],
          current_phase := .WarmUp } =
      .ok businessFallback ∧
    techFallback.score = 7 ∧ hrFallback.score = 15/2 ∧ businessFallback.score = 15/2 :=
  C8_analysis_fallback (fun _ => .ok "这不是JSON") (fun _ => none) "问题" "回答"
    "这不是JSON"
    { resume := "", job_description := "", conversation_history := [],
      current_phase := .WarmUp }
    rfl rfl

/-- A successful `searchLookup` reports similarity `1 - distance`. -/
theorem searchLookup_sim (rows : List KnowledgeRow) (ct : Option String)
    (nb : Nat × ℚ) (r : SearchResult) (h : searchLookup rows ct nb = some r) :
    r.similarity = 1 - nb.2 := by
  simp only [searchLookup] at h
  split at h
  · simp only [Option.some.injEq] at h
    subst h
    rfl
  · exact absurd h (by simp)

/-- A successful `searchLookup` under a content-type filter returns a result
of that content type. -/
theorem searchLookup_type (rows : List KnowledgeRow) (ct : String)
    (nb : Nat × ℚ) (r : SearchResult) (h : searchLookup rows (some ct) nb = some r) :
    r.content_type = ct := by
  simp only [searchLookup] at h
  split at h
  next r0 heq =>
    simp only [Option.some.injEq] at h
    subst h
    have hp := List.find?_some heq
    simp only [Bool.and_eq_true, beq_iff_eq] at hp
    exact hp.2
  next => exact absurd h (by simp)

/-- C4 (amended): `search` fails with "Index not built" when no index exists;
otherwise it requests the `top_k` nearest candidates from the approximate
index (`max(2k, 50)` is passed only as the search-breadth parameter
`ef_search`, not as a candidate count) and filters them by content type, so it
returns at most `k` results, sorted by descending similarity (`1 − distance`),
each of the requested content type — but filtering losses are not compensated
by any over-fetch. -/
theorem C4_search_behavior (dist : List ℚ → List ℚ → ℚ) (s : VectorStore)
    (embedding : List ℚ) (top_k : Nat) (content_type : Option String) :
    (s.index = none →
      s.search dist embedding top_k content_type = .error "Index not built") ∧
    (∀ idx, s.index = some idx → ∃ rs,
      s.search dist embedding top_k content_type = .ok rs ∧
      rs.length ≤ top_k ∧
      rs.Pairwise (fun a b => b.similarity ≤ a.similarity) ∧
      (∀ ct, content_type = some ct → ∀ r ∈ rs, r.content_type = ct)) := by
  constructor
  · intro h
    simp [VectorStore.search, h]
  · intro idx h
    refine ⟨(hnswSearch dist idx embedding top_k (Nat.max (top_k * 2) 50)).filterMap
      (searchLookup s.rows content_type), ?_, ?_, ?_, ?_⟩
    · simp [VectorStore.search, h]
    · refine le_trans (List.length_filterMap_le _ _) ?_
      simp only [hnswSearch, List.length_take]
      exact min_le_left _ _
    · have hsorted : (List.insertionSort distLe
          (idx.map (fun p => (p.1, dist embedding p.2)))).Pairwise distLe :=
        List.sorted_insertionSort distLe _
      have htake : (hnswSearch dist idx embedding top_k
          (Nat.max (top_k * 2) 50)).Pairwise distLe :=
        hsorted.sublist (List.take_sublist _ _)
      rw [List.pairwise_filterMap]
      refine htake.imp ?_
      intro a b hab r1 hr1 r2 hr2
      rw [Option.mem_def] at hr1 hr2
      rw [searchLookup_sim _ _ _ _ hr1, searchLookup_sim _ _ _ _ hr2]
      have : a.2 ≤ b.2 := hab
      linarith
    · intro ct hct r hr
      rw [hct] at hr
      obtain ⟨nb, _, hlook⟩ := List.mem_filterMap.mp hr
      exact searchLookup_type _ _ _ _ hlook

/-- C4, refutation of the over-fetch wording: on a store with two `question`
rows and one nearer `jd` row, `search` with `k = 2` and filter `question`
returns a single result, whereas the spec-worded over-fetch-then-truncate
search returns two — filtering losses are not absorbed. -/
theorem C4_search_counterexample :
    (storeJQQ.build_index).1.search dist1 [0] 2 (some "question") =
      .ok [{ id := 2, content := "q1", content_type := "question",
             metadata := none, similarity := 0 }] ∧
    (storeJQQ.build_index).1.searchSpec dist1 [0] 2 (some "question") =
      .ok [{ id := 2, content := "q1", content_type := "question",
             metadata := none, similarity := 0 },
           { id := 3, content := "q2", content_type := "question",
             metadata := none, similarity := -1 }] ∧
    (storeJQQ.rows.filter (fun r => r.content_type == "question")).length = 2 := by
  refine ⟨?_, ?_, ?_⟩ <;>
    norm_num +decide [VectorStore.search, VectorStore.searchSpec,
      VectorStore.build_index, storeJQQ, hnswSearch, dist1, searchLookup,
      List.insertionSort, List.orderedInsert, distLe, List.find?, List.filterMap]

/-- Concrete instantiation of `C4_search_behavior` on the built three-row
store. -/
theorem C4_search_behavior_witness :
    ((storeJQQ.build_index).1.index = none →
      (storeJQQ.build_index).1.search dist1 [0] 2 (some "question") =
        .error "Index not built") ∧
    (∀ idx, (storeJQQ.build_index).1.index = some idx → ∃ rs,
      (storeJQQ.build_index).1.search dist1 [0] 2 (some "question") = .ok rs ∧
      rs.length ≤ 2 ∧
      rs.Pairwise (fun a b => b.similarity ≤ a.similarity) ∧
      (∀ ct, (some "question" : Option String) = some ct →
        ∀ r ∈ rs, r.content_type = ct)) :=
  C4_search_behavior dist1 (storeJQQ.build_index).1 [0] 2 (some "question")

/-- C9: `build_index` on an empty backing store returns success without
installing an index, and a subsequent `search` still fails with "Index not
built" when no index was installed before. -/
theorem C9_build_index_empty (dist : List ℚ → List ℚ → ℚ) (s : VectorStore)
    (embedding : List ℚ) (top_k : Nat) (content_type : Option String)
    (hrows : s.rows = []) :
    s.build_index = (s, .ok ()) ∧
    (s.index = none →
      (s.build_index).1.search dist embedding top_k content_type =
        .error "Index not built") := by
  have h1 : s.build_index = (s, .ok ()) := by
    simp [VectorStore.build_index, hrows]
  refine ⟨h1, fun hidx => ?_⟩
  rw [h1]
  simp [VectorStore.search, hidx]

/-- Concrete instantiation of `C9_build_index_empty` on the empty store. -/
theorem C9_build_index_empty_witness :
    VectorStore.build_index { rows := [], index := none } =
      ({ rows := [], index := none }, .ok ()) ∧
    (({ rows := [], index := none } : VectorStore).index = none →
      (VectorStore.build_index { rows := [], index := none }).1.search dist1 [0] 5 none =
        .error "Index not built") :=
  C9_build_index_empty dist1 { rows := [], index := none } [0] 5 none rfl

/-- `updateLast` never empties a nonempty list. -/
theorem updateLast_ne_nil {α : Type} (f : α → α) (l : List α) (h : l ≠ []) :
    updateLast f l ≠ [] := by
  cases l with
  | nil => exact absurd rfl h
  | cons a t => cases t <;> simp [updateLast]

/-- `updateLast` applies `f` exactly to the last element. -/
theorem updateLast_getLast? {α : Type} (f : α → α) :
    ∀ l : List α, (updateLast f l).getLast? = l.getLast?.map f := by
  intro l
  induction l with
  | nil => rfl
  | cons x xs ih =>
    cases xs with
    | nil => rfl
    | cons y ys =>
      have hne : updateLast f (y :: ys) ≠ [] := updateLast_ne_nil f _ (by simp)
      have hstep : (x :: updateLast f (y :: ys)).getLast? =
          (updateLast f (y :: ys)).getLast? := by
        cases hM : updateLast f (y :: ys) with
        | nil => exact absurd hM hne
        | cons m ms => rw [List.getLast?_cons_cons]
      calc (updateLast f (x :: y :: ys)).getLast?
          = (x :: updateLast f (y :: ys)).getLast? := rfl
        _ = (updateLast f (y :: ys)).getLast? := hstep
        _ = (y :: ys).getLast?.map f := ih

/-- Characterization of `process_answer` on a nonempty history: the answer is
recorded, then the result follows the agent's analysis outcome. -/
theorem process_answer_eq (s : AgentScheduler) (agent : Agent)
    (ctx : InterviewContext) (answer : String)
    (hagent : s.current_agent = some agent)
    (last_turn : ConversationTurn)
    (hlast : ctx.conversation_history.getLast? = some last_turn) :
    s.process_answer ctx answer =
      match agent.analyze_answer last_turn.question answer
          (recordAnswer ctx answer) with
      | .error e => (recordAnswer ctx answer, .error e)
      | .ok analysis =>
        (attachAnalysis (recordAnswer ctx answer) analysis, .ok analysis) := by
  simp only [AgentScheduler.process_answer, hagent, hlast]

/-- C1 (amended): `process_answer` fails — with the `anyhow` message "No
conversation turn" — exactly when the conversation history is empty; whenever
a last turn exists, answered or not, the call overwrites that turn's answer
with the new one and mirrors the agent's analysis outcome (attaching the
analysis on success). -/
theorem C1_process_answer_behavior (s : AgentScheduler) (agent : Agent)
    (ctx : InterviewContext) (answer : String)
    (hagent : s.current_agent = some agent) :
    (ctx.conversation_history = [] →
      s.process_answer ctx answer =
        (ctx, .error (.anyhowMsg "No conversation turn"))) ∧
    (∀ last_turn, ctx.conversation_history.getLast? = some last_turn →
      ((s.process_answer ctx answer).1.conversation_history.getLast?.map
        (fun t => t.answer)) = some (some answer) ∧
      (∀ a, agent.analyze_answer last_turn.question answer
            (recordAnswer ctx answer) = .ok a →
        (s.process_answer ctx answer).2 = .ok a) ∧
      (∀ e, agent.analyze_answer last_turn.question answer
            (recordAnswer ctx answer) = .error e →
        (s.process_answer ctx answer).2 = .error e)) := by
  constructor
  · intro h
    simp [AgentScheduler.process_answer, hagent, h]
  · intro last_turn hlast
    have heq := process_answer_eq s agent ctx answer hagent last_turn hlast
    have hrec : (recordAnswer ctx answer).conversation_history.getLast? =
        some { last_turn with answer := some answer } := by
      simp [recordAnswer, updateLast_getLast?, hlast]
    refine ⟨?_, ?_, ?_⟩
    · rw [heq]
      cases hana : agent.analyze_answer last_turn.question answer
          (recordAnswer ctx answer) with
      | error e => simp [hrec]
      | ok a =>
        simp only []
        simp [attachAnalysis, updateLast_getLast?, hrec]
    · intro a hana
      rw [heq, hana]
    · intro e hana
      rw [heq, hana]

/-- Concrete instantiation of `C1_process_answer_behavior` with the stub
agent and an already-answered last turn. -/
theorem C1_process_answer_behavior_witness :
    (ctxAnswered.conversation_history = [] →
      stubScheduler.process_answer ctxAnswered "a2" =
        (ctxAnswered, .error (.anyhowMsg "No conversation turn"))) ∧
    (∀ last_turn, ctxAnswered.conversation_history.getLast? = some last_turn →
      ((stubScheduler.process_answer ctxAnswered "a2").1.conversation_history.getLast?.map
        (fun t => t.answer)) = some (some "a2") ∧
      (∀ a, stubAgent.analyze_answer last_turn.question "a2"
            (recordAnswer ctxAnswered "a2") = .ok a →
        (stubScheduler.process_answer ctxAnswered "a2").2 = .ok a) ∧
      (∀ e, stubAgent.analyze_answer last_turn.question "a2"
            (recordAnswer ctxAnswered "a2") = .error e →
        (stubScheduler.process_answer ctxAnswered "a2").2 = .error e)) :=
  C1_process_answer_behavior stubScheduler stubAgent ctxAnswered "a2" rfl

/-- C1, refutation: after `execute_turn` and one `process_answer`, a second
consecutive `process_answer` (no intervening `execute_turn`, so no pending
answer-less turn exists) succeeds and silently overwrites the recorded
answer, instead of failing with any error. -/
theorem C1_process_answer_counterexample :
    (stubScheduler.process_answer
        (stubScheduler.process_answer
          (stubScheduler.execute_turn emptyCtx).1 "first").1 "second").2 =
      .ok stubAnalysis ∧
    (InterviewContext.conversation_history
        (stubScheduler.process_answer
          (stubScheduler.process_answer
            (stubScheduler.execute_turn emptyCtx).1 "first").1 "second").1).map
      (fun t => t.answer) = [some "second"] := by
  constructor <;> rfl

/-- C10: `execute_turn` is atomic with respect to the conversation history —
when the current agent's `generate_question` fails, the error is returned and
the context is unchanged; when it succeeds, exactly one fresh turn with
`answer = none` and `analysis = none` is appended. -/
theorem C10_execute_turn_atomic (s : AgentScheduler) (agent : Agent)
    (ctx : InterviewContext) (hagent : s.current_agent = some agent) :
    (∀ e, agent.generate_question ctx = .error e →
      s.execute_turn ctx = (ctx, .error e)) ∧
    (∀ q, agent.generate_question ctx = .ok q →
      s.execute_turn ctx = (appendTurn ctx (newTurn agent q), .ok (newTurn agent q)) ∧
      (newTurn agent q).answer = none ∧ (newTurn agent q).analysis = none) := by
  constructor
  · intro e he
    simp [AgentScheduler.execute_turn, hagent, he]
  · intro q hq
    refine ⟨?_, rfl, rfl⟩
    simp [AgentScheduler.execute_turn, hagent, hq]

/-- Concrete instantiation of `C10_execute_turn_atomic` with the stub agent
on the empty context. -/
theorem C10_execute_turn_atomic_witness :
    (∀ e, stubAgent.generate_question emptyCtx = .error e →
      stubScheduler.execute_turn emptyCtx = (emptyCtx, .error e)) ∧
    (∀ q, stubAgent.generate_question emptyCtx = .ok q →
      stubScheduler.execute_turn emptyCtx =
        (appendTurn emptyCtx (newTurn stubAgent q), .ok (newTurn stubAgent q)) ∧
      (newTurn stubAgent q).answer = none ∧ (newTurn stubAgent q).analysis = none) :=
  C10_execute_turn_atomic stubScheduler stubAgent emptyCtx rfl

/-- C2 (amended): only a timed-out initialization is sticky.  A timeout
latches `init_failed`, after which `ensure_initialized` and all five service
operations fail fast with the previously-failed error, leaving the state
untouched and never re-running initialization; a non-timeout initialization
failure is not latched — the state is unchanged, so a later call re-attempts
initialization. -/
theorem C2_sticky_failure_behavior (st : RagState) (outcome : InitOutcome) :
    (st.init_failed = false → st.internals_ready = false →
      RagService.ensure_initialized st .timeout =
        ({ st with init_failed := true }, .error .initTimedOut)) ∧
    (∀ msg, st.init_failed = false → st.internals_ready = false →
      RagService.ensure_initialized st (.failure msg) =
        (st, .error (.initError msg))) ∧
    (st.init_failed = true →
      RagService.ensure_initialized st outcome = (st, .error .previouslyFailed) ∧
      (∀ rest : Except RagErr Int,
        RagService.embed_and_store st outcome rest =
          (st, .error .previouslyFailed)) ∧
      (∀ rest : Except RagErr (List SearchResult),
        RagService.retrieve_similar_questions st outcome rest =
          (st, .error .previouslyFailed)) ∧
      (∀ rest : Except RagErr (List SearchResult),
        RagService.retrieve_best_answers st outcome rest =
          (st, .error .previouslyFailed)) ∧
      (∀ rest : Except RagErr (List SearchResult),
        RagService.retrieve_similar_jd st outcome rest =
          (st, .error .previouslyFailed)) ∧
      (∀ rest : Except RagErr Unit,
        RagService.rebuild_index st outcome rest =
          (st, .error .previouslyFailed))) := by
  refine ⟨?_, ?_, ?_⟩
  · intro h1 h2
    simp [RagService.ensure_initialized, h1, h2]
  · intro msg h1 h2
    simp [RagService.ensure_initialized, h1, h2]
  · intro h1
    have hens : RagService.ensure_initialized st outcome =
        (st, .error .previouslyFailed) := by
      simp [RagService.ensure_initialized, h1]
    refine ⟨hens, ?_, ?_, ?_, ?_, ?_⟩ <;> intro rest <;>
      simp [RagService.embed_and_store, RagService.retrieve_similar_questions,
        RagService.retrieve_best_answers, RagService.retrieve_similar_jd,
        RagService.rebuild_index, RagService.ragCall, hens]

/-- Concrete instantiation of `C2_sticky_failure_behavior` on the
timeout-latched state. -/
theorem C2_sticky_failure_behavior_witness :
    (ragLatched.init_failed = false → ragLatched.internals_ready = false →
      RagService.ensure_initialized ragLatched .timeout =
        ({ ragLatched with init_failed := true }, .error .initTimedOut)) ∧
    (∀ msg, ragLatched.init_failed = false → ragLatched.internals_ready = false →
      RagService.ensure_initialized ragLatched (.failure msg) =
        (ragLatched, .error (.initError msg))) ∧
    (ragLatched.init_failed = true →
      RagService.ensure_initialized ragLatched .success =
        (ragLatched, .error .previouslyFailed) ∧
      (∀ rest : Except RagErr Int,
        RagService.embed_and_store ragLatched .success rest =
          (ragLatched, .error .previouslyFailed)) ∧
      (∀ rest : Except RagErr (List SearchResult),
        RagService.retrieve_similar_questions ragLatched .success rest =
          (ragLatched, .error .previouslyFailed)) ∧
      (∀ rest : Except RagErr (List SearchResult),
        RagService.retrieve_best_answers ragLatched .success rest =
          (ragLatched, .error .previouslyFailed)) ∧
      (∀ rest : Except RagErr (List SearchResult),
        RagService.retrieve_similar_jd ragLatched .success rest =
          (ragLatched, .error .previouslyFailed)) ∧
      (∀ rest : Except RagErr Unit,
        RagService.rebuild_index ragLatched .success rest =
          (ragLatched, .error .previouslyFailed))) :=
  C2_sticky_failure_behavior ragLatched .success

/-- C2, refutation: a fast (non-timeout) initialization failure does not put
the service into a sticky-failed state — the failure flag stays clear, and
the very next call re-attempts initialization and can succeed, as can
`embed_and_store`. -/
theorem C2_sticky_failure_counterexample :
    (RagService.ensure_initialized RagService.new
        (.failure "model load failed")).1.init_failed = false ∧
    RagService.ensure_initialized
        (RagService.ensure_initialized RagService.new
          (.failure "model load failed")).1 .success =
      ({ internals_ready := true, init_failed := false }, .ok ()) ∧
    RagService.embed_and_store
        (RagService.ensure_initialized RagService.new
          (.failure "model load failed")).1 .success (.ok 1) =
      ({ internals_ready := true, init_failed := false }, .ok 1) := by
  refine ⟨rfl, rfl, rfl⟩

/-- A step never clears the `lateStart` instrumentation flag. -/
theorem dedupStep_lateStart_mono (exec : Nat → Nat) (s : DedupState) (i : Nat)
    (h : s.lateStart = true) : (dedupStep exec s i).lateStart = true := by
  cases hpc : s.pcs[i]? with
  | none => simpa [dedupStep, hpc] using h
  | some pc =>
    cases pc <;> simp only [dedupStep, hpc] <;> (repeat' split) <;> simp [h]

/-- A step never changes the number of callers. -/
theorem dedupStep_pcs_length (exec : Nat → Nat) (s : DedupState) (i : Nat) :
    (dedupStep exec s i).pcs.length = s.pcs.length := by
  cases hpc : s.pcs[i]? with
  | none => simp [dedupStep, hpc]
  | some pc =>
    cases pc <;> simp only [dedupStep, hpc] <;> (repeat' split) <;> simp

/-- One scheduled step preserves the deduplicator invariant as long as it
does not mark a late start. -/
theorem dedupStep_inv (exec : Nat → Nat) (s : DedupState) (i : Nat)
    (hinv : DedupInv exec s)
    (hls : (dedupStep exec s i).lateStart = false) :
    DedupInv exec (dedupStep exec s i) := by
  cases hpc : s.pcs[i]? with
  | none => simpa [dedupStep, hpc] using hinv
  | some pc =>
    have hi : i < s.pcs.length := by
      rcases List.getElem?_eq_some_iff.mp hpc with ⟨hlt, _⟩
      exact hlt
    have hmem : pc ∈ s.pcs := List.mem_iff_getElem?.mpr ⟨i, hpc⟩
    rcases hinv with h0 | h1a | h1b | h2 | h3
    · obtain ⟨hc, hp, hec, hrm, hall⟩ := h0
      have hpcstart := hall pc hmem
      subst hpcstart
      have hstep : dedupStep exec s i =
          { s with pending := some 0,
                   cells := [{ contents := none, holder := none }],
                   pcs := s.pcs.set i (.locking 0) } := by
        simp [dedupStep, hpc, hp, hc, hrm]
      rw [hstep]
      refine Or.inr (Or.inl ⟨rfl, rfl, hec, hrm, ?_⟩)
      intro pc' hmem'
      rcases List.mem_or_eq_of_mem_set hmem' with hin | heq
      · exact Or.inl (hall pc' hin)
      · exact Or.inr heq
    · obtain ⟨hc, hp, hec, hrm, hall⟩ := h1a
      rcases hall pc hmem with hstart | hlock
      · subst hstart
        have hstep : dedupStep exec s i =
            { s with pcs := s.pcs.set i (.locking 0) } := by
          simp [dedupStep, hpc, hp, hrm]
        rw [hstep]
        refine Or.inr (Or.inl ⟨hc, hp, hec, hrm, ?_⟩)
        intro pc' hmem'
        rcases List.mem_or_eq_of_mem_set hmem' with hin | heq
        · exact hall pc' hin
        · exact Or.inr heq
      · subst hlock
        have hstep : dedupStep exec s i =
            { s with cells := [{ contents := none, holder := some i }],
                     pcs := s.pcs.set i (.running 0) } := by
          simp [dedupStep, hpc, hc]
        rw [hstep]
        refine Or.inr (Or.inr (Or.inl ⟨i, rfl, hp, hec, hrm, ?_, ?_⟩))
        · exact List.getElem?_set_self hi
        · intro j pc' hj
          by_cases hij : j = i
          · subst hij
            rw [List.getElem?_set_self hi] at hj
            cases hj
            exact Or.inr (Or.inr ⟨rfl, rfl⟩)
          · rw [List.getElem?_set_ne (fun h => hij h.symm)] at hj
            rcases hall pc' (List.mem_iff_getElem?.mpr ⟨j, hj⟩) with h | h
            · exact Or.inl h
            · exact Or.inr (Or.inl h)
    · obtain ⟨ex, hc, hp, hec, hrm, hex, hall⟩ := h1b
      rcases hall i pc hpc with hstart | hlock | ⟨hie, hrun⟩
      · subst hstart
        have hne : i ≠ ex := by
          intro heq
          subst heq
          rw [hex] at hpc
          simp at hpc
        have hstep : dedupStep exec s i =
            { s with pcs := s.pcs.set i (.locking 0) } := by
          simp [dedupStep, hpc, hp, hrm]
        rw [hstep]
        refine Or.inr (Or.inr (Or.inl ⟨ex, hc, hp, hec, hrm, ?_, ?_⟩))
        · rw [List.getElem?_set_ne hne]
          exact hex
        · intro j pc' hj
          by_cases hij : j = i
          · subst hij
            rw [List.getElem?_set_self hi] at hj
            cases hj
            exact Or.inr (Or.inl rfl)
          · rw [List.getElem?_set_ne (fun h => hij h.symm)] at hj
            exact hall j pc' hj
      · subst hlock
        have hstep : dedupStep exec s i = s := by
          simp [dedupStep, hpc, hc]
        rw [hstep]
        exact Or.inr (Or.inr (Or.inl ⟨ex, hc, hp, hec, hrm, hex, hall⟩))
      · subst hie
        subst hrun
        have hstep : dedupStep exec s i =
            { s with cells := [{ contents := some (exec 0), holder := some i }],
                     execCount := 1,
                     pcs := s.pcs.set i (.removing 0 (exec 0)) } := by
          simp [dedupStep, hpc, hc, hec]
        rw [hstep]
        refine Or.inr (Or.inr (Or.inr (Or.inl ⟨i, rfl, hp, rfl, hrm, ?_, ?_⟩)))
        · exact List.getElem?_set_self hi
        · intro j pc' hj
          by_cases hij : j = i
          · subst hij
            rw [List.getElem?_set_self hi] at hj
            cases hj
            exact Or.inr (Or.inr ⟨rfl, rfl⟩)
          · rw [List.getElem?_set_ne (fun h => hij h.symm)] at hj
            rcases hall j pc' hj with h | h | ⟨hje, _⟩
            · exact Or.inl h
            · exact Or.inr (Or.inl h)
            · exact absurd hje hij
    · obtain ⟨ex, hc, hp, hec, hrm, hex, hall⟩ := h2
      rcases hall i pc hpc with hstart | hlock | ⟨hie, hrem⟩
      · subst hstart
        have hne : i ≠ ex := by
          intro heq
          subst heq
          rw [hex] at hpc
          simp at hpc
        have hstep : dedupStep exec s i =
            { s with pcs := s.pcs.set i (.locking 0) } := by
          simp [dedupStep, hpc, hp, hrm]
        rw [hstep]
        refine Or.inr (Or.inr (Or.inr (Or.inl ⟨ex, hc, hp, hec, hrm, ?_, ?_⟩)))
        · rw [List.getElem?_set_ne hne]
          exact hex
        · intro j pc' hj
          by_cases hij : j = i
          · subst hij
            rw [List.getElem?_set_self hi] at hj
            cases hj
            exact Or.inr (Or.inl rfl)
          · rw [List.getElem?_set_ne (fun h => hij h.symm)] at hj
            exact hall j pc' hj
      · subst hlock
        have hstep : dedupStep exec s i = s := by
          simp [dedupStep, hpc, hc]
        rw [hstep]
        exact Or.inr (Or.inr (Or.inr (Or.inl ⟨ex, hc, hp, hec, hrm, hex, hall⟩)))
      · subst hie
        subst hrem
        have hstep : dedupStep exec s i =
            { s with pending := none,
                     cells := [{ contents := some (exec 0), holder := none }],
                     removed := true,
                     pcs := s.pcs.set i (.done (exec 0)) } := by
          simp [dedupStep, hpc, hc]
        rw [hstep]
        refine Or.inr (Or.inr (Or.inr (Or.inr ⟨rfl, rfl, hec, rfl, ?_⟩)))
        intro pc' hmem'
        rcases List.mem_iff_getElem?.mp hmem' with ⟨j, hj⟩
        by_cases hij : j = i
        · subst hij
          rw [List.getElem?_set_self hi] at hj
          cases hj
          exact Or.inr (Or.inr rfl)
        · rw [List.getElem?_set_ne (fun h => hij h.symm)] at hj
          rcases hall j pc' hj with h | h | ⟨hje, _⟩
          · exact Or.inl h
          · exact Or.inr (Or.inl h)
          · exact absurd hje hij
    · obtain ⟨hc, hp, hec, hrm, hall⟩ := h3
      rcases hall pc hmem with hstart | hlock | hdone
      · subst hstart
        have hstep : (dedupStep exec s i).lateStart = true := by
          simp [dedupStep, hpc, hp, hrm]
        rw [hstep] at hls
        simp at hls
      · subst hlock
        have hstep : dedupStep exec s i =
            { s with pcs := s.pcs.set i (.done (exec 0)) } := by
          simp [dedupStep, hpc, hc]
        rw [hstep]
        refine Or.inr (Or.inr (Or.inr (Or.inr ⟨hc, hp, hec, hrm, ?_⟩)))
        intro pc' hmem'
        rcases List.mem_or_eq_of_mem_set hmem' with hin | heq
        · exact hall pc' hin
        · exact Or.inr (Or.inr heq)
      · subst hdone
        have hstep : dedupStep exec s i = s := by
          simp [dedupStep, hpc]
        rw [hstep]
        exact Or.inr (Or.inr (Or.inr (Or.inr ⟨hc, hp, hec, hrm, hall⟩)))

/-- Along any schedule, every reachable state either records a late start or
satisfies the deduplicator invariant. -/
theorem dedupRun_inv (exec : Nat → Nat) :
    ∀ (sched : List Nat) (s : DedupState),
      (s.lateStart = true ∨ DedupInv exec s) →
      ((dedupRun exec sched s).lateStart = true ∨
        DedupInv exec (dedupRun exec sched s)) := by
  intro sched
  induction sched with
  | nil => intro s h; exact h
  | cons i rest ih =>
    intro s h
    have hstep : dedupRun exec (i :: rest) s = dedupRun exec rest (dedupStep exec s i) := rfl
    rw [hstep]
    apply ih
    rcases h with hls | hinv
    · exact Or.inl (dedupStep_lateStart_mono exec s i hls)
    · by_cases hls2 : (dedupStep exec s i).lateStart = true
      · exact Or.inl hls2
      · exact Or.inr (dedupStep_inv exec s i hinv (by simpa using hls2))

/-- Running a schedule never changes the number of callers. -/
theorem dedupRun_pcs_length (exec : Nat → Nat) :
    ∀ (sched : List Nat) (s : DedupState),
      (dedupRun exec sched s).pcs.length = s.pcs.length := by
  intro sched
  induction sched with
  | nil => intro s; rfl
  | cons i rest ih =>
    intro s
    have hstep : dedupRun exec (i :: rest) s = dedupRun exec rest (dedupStep exec s i) := rfl
    rw [hstep, ih, dedupStep_pcs_length]

/-- C3: for any number `n ≥ 1` of callers of `deduplicate` with the same key
and any interleaving in which every caller performs its pending-map access
before the key is removed (i.e. while the single execution is in flight), the
wrapped operation executes exactly once, every caller returns the identical
result of that single execution, and the key ends up removed from the pending
map.  Moreover (second conjunct), a later non-concurrent caller — here the
canonical sequential two-caller schedule — re-executes the operation. -/
theorem C3_deduplicate (exec : Nat → Nat) :
    (∀ (n : Nat) (sched : List Nat), 0 < n →
      (dedupRun exec sched (dedupInit n)).lateStart = false →
      (∀ pc ∈ (dedupRun exec sched (dedupInit n)).pcs, pc.isDone = true) →
      (dedupRun exec sched (dedupInit n)).execCount = 1 ∧
      (∀ pc ∈ (dedupRun exec sched (dedupInit n)).pcs, pc = DedupPc.done (exec 0)) ∧
      (dedupRun exec sched (dedupInit n)).pending = none) ∧
    ((dedupRun exec [0, 0, 0, 0, 1, 1, 1, 1] (dedupInit 2)).execCount = 2 ∧
      (dedupRun exec [0, 0, 0, 0, 1, 1, 1, 1] (dedupInit 2)).pcs =
        [DedupPc.done (exec 0), DedupPc.done (exec 1)]) := by
  constructor
  · intro n sched hn hls hdone
    have hinit : DedupInv exec (dedupInit n) := by
      left
      refine ⟨rfl, rfl, rfl, rfl, ?_⟩
      intro pc hpc
      exact List.eq_of_mem_replicate hpc
    have hinv := dedupRun_inv exec sched (dedupInit n) (Or.inr hinit)
    rcases hinv with h | hinv
    · rw [hls] at h
      cases h
    have hlen : (dedupRun exec sched (dedupInit n)).pcs.length = n := by
      rw [dedupRun_pcs_length]
      simp [dedupInit]
    have hne : (dedupRun exec sched (dedupInit n)).pcs ≠ [] := by
      intro h
      rw [h] at hlen
      simp at hlen
      omega
    obtain ⟨pc0, hpc0⟩ := List.exists_mem_of_ne_nil _ hne
    rcases hinv with h0 | h1a | h1b | h2 | h3
    · have hs := h0.2.2.2.2 pc0 hpc0
      have hd := hdone pc0 hpc0
      rw [hs] at hd
      simp [DedupPc.isDone] at hd
    · have hd := hdone pc0 hpc0
      rcases h1a.2.2.2.2 pc0 hpc0 with h | h <;>
        (rw [h] at hd; simp [DedupPc.isDone] at hd)
    · obtain ⟨ex, _, _, _, _, hex, _⟩ := h1b
      have hd := hdone _ (List.mem_iff_getElem?.mpr ⟨ex, hex⟩)
      simp [DedupPc.isDone] at hd
    · obtain ⟨ex, _, _, _, _, hex, _⟩ := h2
      have hd := hdone _ (List.mem_iff_getElem?.mpr ⟨ex, hex⟩)
      simp [DedupPc.isDone] at hd
    · obtain ⟨hc, hp, hec, hrm, hall⟩ := h3
      refine ⟨hec, ?_, hp⟩
      intro pc hpc
      have hd := hdone pc hpc
      rcases hall pc hpc with h | h | h
      · rw [h] at hd
        simp [DedupPc.isDone] at hd
      · rw [h] at hd
        simp [DedupPc.isDone] at hd
      · exact h
  · constructor <;>
      simp [dedupRun, dedupStep, dedupInit, List.replicate]

/-- Concrete instantiation of `C3_deduplicate`: three callers interleaved
inside the concurrency window (`exec` is the identity), all observing the
single execution's result. -/
theorem C3_deduplicate_witness :
    (dedupRun (fun k => k) [0, 1, 2, 0, 0, 1, 0, 1, 2] (dedupInit 3)).execCount = 1 ∧
    (∀ pc ∈ (dedupRun (fun k => k) [0, 1, 2, 0, 0, 1, 0, 1, 2] (dedupInit 3)).pcs,
      pc = DedupPc.done 0) ∧
    (dedupRun (fun k => k) [0, 1, 2, 0, 0, 1, 0, 1, 2] (dedupInit 3)).pending = none :=
  (C3_deduplicate (fun k => k)).1 3 [0, 1, 2, 0, 0, 1, 0, 1, 2] (by decide)
    (by decide) (by decide)
